import Mathlib

/-!
Verification of the configuration validator of `twlog-who-said`
(`src/config/config.go`).

The embedding models:
* the `Config` record and its `Validate` method (mirroring the Go control
  flow, including in-place mutation of the compiled-pattern fields and the
  normalised output format: `Validate` returns the mutated record together
  with the optional error);
* Go's `regexp` package (an external collaborator of this core) as a small
  regular-expression abstract syntax tree with a parser (`Compile`) for the
  syntactic subset the program uses and a denotational matching relation
  (`Matches` / `ReMatch`), following the spec's description of patterns and
  compiled patterns;
* the single filesystem stat call as an oracle `String → StatResult`;
* the processing-unit count used by the default factory as a parameter.
-/

namespace Who

/-- Modelled from the spec: the abstract syntax of a compiled pattern, the
runtime-ready form of a regular expression produced by the (external) Go
`regexp.Compile` collaborator.  Only the constructs the program's patterns
use are represented: the empty regex, literal characters, `.` (any character
other than a newline), concatenation, alternation, Kleene star, and the
`^` / `$` position assertions. -/
inductive Re where
  | eps : Re
  | lit : Char → Re
  | any : Re
  | seq : Re → Re → Re
  | alt : Re → Re → Re
  | star : Re → Re
  | bol : Re
  | eol : Re
deriving DecidableEq

/-- Concatenation of a list of regexes (empty list is the empty regex). -/
def mkSeq : List Re → Re
  | [] => Re.eps
  | [r] => r
  | r :: rs => Re.seq r (mkSeq rs)

/-- Alternation of a list of regexes (empty list is the empty regex). -/
def mkAlt : List Re → Re
  | [] => Re.eps
  | [r] => r
  | r :: rs => Re.alt r (mkAlt rs)

/-- Close the current alternation group: earlier alternatives are collected
in reverse order in `alts`, the factors of the current alternative in
reverse order in `seqr`. -/
def finishAlts (alts seqr : List Re) : Re :=
  mkAlt ((mkSeq seqr.reverse :: alts).reverse)

/-- A regex matching exactly the literal word `w`. -/
def litWord (w : List Char) : Re :=
  mkSeq (w.map Re.lit)

/-- Modelled from the spec: recursive-descent parser for the regular
expression syntax subset used by the program, standing in for the external
`regexp.Compile`.  Arguments: remaining input, stack of enclosing group
contexts, alternatives collected so far (reversed), factors of the current
alternative (reversed). -/
def parseRe : List Char → List (List Re × List Re) → List Re → List Re →
    Except String Re
  | [], [], alts, seqr => Except.ok (finishAlts alts seqr)
  | [], _ :: _, _, _ => Except.error "missing closing parenthesis"
  | '\\' :: [], _, _, _ => Except.error "trailing backslash at end of expression"
  | '\\' :: c :: rest, stack, alts, seqr =>
    if c.isAlphanum then Except.error "invalid escape sequence"
    else parseRe rest stack alts (Re.lit c :: seqr)
  | '(' :: rest, stack, alts, seqr => parseRe rest ((alts, seqr) :: stack) [] []
  | ')' :: rest, stack, alts, seqr =>
    match stack with
    | [] => Except.error "unexpected closing parenthesis"
    | (alts2, seqr2) :: stack2 =>
      parseRe rest stack2 alts2 (finishAlts alts seqr :: seqr2)
  | '|' :: rest, stack, alts, seqr =>
    parseRe rest stack (mkSeq seqr.reverse :: alts) []
  | '*' :: rest, stack, alts, seqr =>
    match seqr with
    | [] => Except.error "missing argument to repetition operator"
    | f :: fs => parseRe rest stack alts (Re.star f :: fs)
  | '+' :: rest, stack, alts, seqr =>
    match seqr with
    | [] => Except.error "missing argument to repetition operator"
    | f :: fs => parseRe rest stack alts (Re.seq f (Re.star f) :: fs)
  | '?' :: rest, stack, alts, seqr =>
    match seqr with
    | [] => Except.error "missing argument to repetition operator"
    | f :: fs => parseRe rest stack alts (Re.alt f Re.eps :: fs)
  | '.' :: rest, stack, alts, seqr => parseRe rest stack alts (Re.any :: seqr)
  | '^' :: rest, stack, alts, seqr => parseRe rest stack alts (Re.bol :: seqr)
  | '$' :: rest, stack, alts, seqr => parseRe rest stack alts (Re.eol :: seqr)
  | '[' :: _, _, _, _ => Except.error "unsupported character class"
  | c :: rest, stack, alts, seqr => parseRe rest stack alts (Re.lit c :: seqr)

/-- Modelled from the spec: `regexp.Compile` — turn a pattern string into a
compiled pattern, or fail with a compiler error. -/
def Compile (s : String) : Except String Re :=
  parseRe s.data [] [] []

/-- Modelled from the spec: the matching semantics of a compiled pattern.
`Matches r pre mid post` states that `r` matches the segment `mid` of the
full subject string `pre ++ mid ++ post`; the surrounding context is kept so
that the `^` and `$` assertions can be interpreted. -/
inductive Matches : Re → List Char → List Char → List Char → Prop where
  | eps : ∀ pre post, Matches Re.eps pre [] post
  | lit : ∀ pre c post, Matches (Re.lit c) pre [c] post
  | any : ∀ pre c post, c ≠ '\n' → Matches Re.any pre [c] post
  | seq : ∀ pre m1 m2 post r1 r2,
      Matches r1 pre m1 (m2 ++ post) → Matches r2 (pre ++ m1) m2 post →
      Matches (Re.seq r1 r2) pre (m1 ++ m2) post
  | altL : ∀ pre mid post r1 r2,
      Matches r1 pre mid post → Matches (Re.alt r1 r2) pre mid post
  | altR : ∀ pre mid post r1 r2,
      Matches r2 pre mid post → Matches (Re.alt r1 r2) pre mid post
  | starNil : ∀ pre post r, Matches (Re.star r) pre [] post
  | starCons : ∀ pre m1 m2 post r,
      Matches r pre m1 (m2 ++ post) → Matches (Re.star r) (pre ++ m1) m2 post →
      Matches (Re.star r) pre (m1 ++ m2) post
  | bol : ∀ post, Matches Re.bol [] [] post
  | eol : ∀ pre, Matches Re.eol pre [] []

/-- Modelled from the spec: a compiled pattern matches a subject string when
it matches some segment of it (unanchored search, as the Go matcher does). -/
def ReMatch (r : Re) (s : String) : Prop :=
  ∃ pre mid post, s.data = pre ++ mid ++ post ∧ Matches r pre mid post

/-- The string `s` ends with the string `sfx`. -/
def StrEndsWith (s sfx : String) : Prop :=
  ∃ t, s.data = t ++ sfx.data

/-- The archive-file extensions named by the spec for the default archive
pattern. -/
def archiveExtensions : List String :=
  [".7z", ".bz2", ".gz", ".tar", ".xz", ".zip", ".zst", ".lz"]

/-- The alternative words of the default archive pattern as written in the
source (note `xz` appears twice there). -/
def archWords : List (List Char) :=
  [['7', 'z'], ['b', 'z', '2'], ['g', 'z'], ['t', 'a', 'r'], ['x', 'z'],
   ['z', 'i', 'p'], ['x', 'z'], ['z', 's', 't'], ['l', 'z']]

/-- The compiled form of the default file pattern `.*\.log$`. -/
def fileAst : Re :=
  Re.seq (Re.star Re.any)
    (Re.seq (Re.lit '.')
      (Re.seq (Re.lit 'l') (Re.seq (Re.lit 'o') (Re.seq (Re.lit 'g') Re.eol))))

/-- The compiled form of the default archive pattern
`\.(7z|bz2|gz|tar|xz|zip|xz|zst|lz)$`. -/
def archAst : Re :=
  Re.seq (Re.lit '.') (Re.seq (mkAlt (archWords.map litWord)) Re.eol)

/-- Modelled from the spec: outcome of the single stat-like filesystem
existence/type query on the search directory — it either fails (does not
exist / inaccessible, with a cause), or reports a non-directory file, or
reports a directory. -/
inductive StatResult where
  | statError : String → StatResult
  | file : StatResult
  | directory : StatResult
deriving DecidableEq

/-- Allowed output format `json` (source constant `FormatJSON`). -/
def FormatJSON : String := "json"

/-- Allowed output format `text` (source constant `FormatText`). -/
def FormatText : String := "text"

/-- The configuration record (source type `Config`).  Compiled patterns are
`Option Re` (`none` standing for Go's nil `*regexp.Regexp`); `Concurrency`
is an integer as in Go. -/
structure Config where
  PhraseRegex : String
  PhraseRegexp : Option Re
  SearchDir : String
  FileRegex : String
  FileRegexp : Option Re
  Deduplicate : Bool
  Extended : Bool
  IPsOnly : Bool
  Output : String
  ArchiveRegex : String
  ArchiveRegexp : Option Re
  IncludeArchives : Bool
  Concurrency : Int
deriving DecidableEq

/-- The default factory (source function `NewConfig`).  The host's
processing-unit count (`runtime.NumCPU()`) is passed as a parameter; all
fields Go zero-initialises are the corresponding zero values. -/
def NewConfig (numCPU : Int) : Config :=
  { PhraseRegex := ""
    PhraseRegexp := none
    SearchDir := "."
    FileRegex := ".*\\.log$"
    FileRegexp := none
    Deduplicate := false
    Extended := false
    IPsOnly := false
    Output := FormatText
    ArchiveRegex := "\\.(7z|bz2|gz|tar|xz|zip|xz|zst|lz)$"
    ArchiveRegexp := none
    IncludeArchives := false
    Concurrency := max 1 numCPU }

/-- The structured error returned by `Validate`; one constructor per `return`
site in the source, carrying the wrapped cause where the source wraps one. -/
inductive ValidateError where
  | missingPhraseRegex : ValidateError
  | invalidPhraseRegex : String → ValidateError
  | missingSearchDir : ValidateError
  | invalidSearchDir : String → ValidateError
  | searchDirNotDirectory : ValidateError
  | missingFileRegex : ValidateError
  | invalidFileRegex : String → ValidateError
  | invalidOutputFormat : String → ValidateError
  | mutuallyExclusiveFlags : ValidateError
  | invalidArchiveRegex : String → ValidateError
  | invalidConcurrency : ValidateError
deriving DecidableEq

/-- Modelled from the spec: lower-casing of the output format value (the
external `strings.ToLower` collaborator), mapping each character to its
lower-case form. -/
def ToLower (s : String) : String :=
  String.mk (s.data.map Char.toLower)

/-- Membership test (source function `isOneOf`), iterating the candidate
values in order. -/
def isOneOf (s : String) : List String → Bool
  | [] => false
  | v :: vs => if s = v then true else isOneOf s vs

/-- The validator (source method `Config.Validate`).  Go mutates the receiver
in place and returns only the error; the embedding returns the (possibly
partially) mutated record together with the optional error.  The filesystem
stat call is the oracle `stat`. -/
def Validate (stat : String → StatResult) (cfg : Config) :
    Config × Option ValidateError :=
  if cfg.PhraseRegex = "" then
    (cfg, some ValidateError.missingPhraseRegex)
  else
    match Compile cfg.PhraseRegex with
    | Except.error e => (cfg, some (ValidateError.invalidPhraseRegex e))
    | Except.ok re =>
      let cfg1 : Config := { cfg with PhraseRegexp := some re }
      if cfg1.SearchDir = "" then
        (cfg1, some ValidateError.missingSearchDir)
      else
        match stat cfg1.SearchDir with
        | StatResult.statError e => (cfg1, some (ValidateError.invalidSearchDir e))
        | StatResult.file => (cfg1, some ValidateError.searchDirNotDirectory)
        | StatResult.directory =>
          if cfg1.FileRegex = "" then
            (cfg1, some ValidateError.missingFileRegex)
          else
            match Compile cfg1.FileRegex with
            | Except.error e => (cfg1, some (ValidateError.invalidFileRegex e))
            | Except.ok re2 =>
              let cfg2 : Config := { cfg1 with FileRegexp := some re2 }
              let lOutput := ToLower cfg2.Output
              if !isOneOf lOutput [FormatJSON, FormatText] then
                (cfg2, some (ValidateError.invalidOutputFormat cfg2.Output))
              else
                let cfg3 : Config := { cfg2 with Output := lOutput }
                if cfg3.Extended && cfg3.IPsOnly then
                  (cfg3, some ValidateError.mutuallyExclusiveFlags)
                else
                  if cfg3.IncludeArchives ∨ cfg3.ArchiveRegex ≠ "" then
                    match Compile cfg3.ArchiveRegex with
                    | Except.error e =>
                      (cfg3, some (ValidateError.invalidArchiveRegex e))
                    | Except.ok re3 =>
                      let cfg4 : Config := { cfg3 with ArchiveRegexp := some re3 }
                      if cfg4.Concurrency < 1 then
                        (cfg4, some ValidateError.invalidConcurrency)
                      else
                        (cfg4, none)
                  else
                    if cfg3.Concurrency < 1 then
                      (cfg3, some ValidateError.invalidConcurrency)
                    else
                      (cfg3, none)

/-- Follows the spec §4.2 wording (refinement reference for the ordering
claim): the ten checks, in the listed order, evaluated over the original
fields of the configuration; the result is the error of the first failing
check, or none. -/
def specValidationError (stat : String → StatResult) (cfg : Config) :
    Option ValidateError :=
  if cfg.PhraseRegex = "" then some ValidateError.missingPhraseRegex
  else
    match Compile cfg.PhraseRegex with
    | Except.error e => some (ValidateError.invalidPhraseRegex e)
    | Except.ok _ =>
      if cfg.SearchDir = "" then some ValidateError.missingSearchDir
      else
        match stat cfg.SearchDir with
        | StatResult.statError e => some (ValidateError.invalidSearchDir e)
        | StatResult.file => some ValidateError.searchDirNotDirectory
        | StatResult.directory =>
          if cfg.FileRegex = "" then some ValidateError.missingFileRegex
          else
            match Compile cfg.FileRegex with
            | Except.error e => some (ValidateError.invalidFileRegex e)
            | Except.ok _ =>
              if ¬(ToLower cfg.Output = FormatJSON ∨
                   ToLower cfg.Output = FormatText) then
                some (ValidateError.invalidOutputFormat cfg.Output)
              else if cfg.Extended = true ∧ cfg.IPsOnly = true then
                some ValidateError.mutuallyExclusiveFlags
              else if cfg.IncludeArchives = true ∨ cfg.ArchiveRegex ≠ "" then
                match Compile cfg.ArchiveRegex with
                | Except.error e => some (ValidateError.invalidArchiveRegex e)
                | Except.ok _ =>
                  if cfg.Concurrency < 1 then some ValidateError.invalidConcurrency
                  else none
              else
                if cfg.Concurrency < 1 then some ValidateError.invalidConcurrency
                else none

/-- The seven invariants of spec §3, read over a configuration and the stat
oracle of the validating host. -/
def ConfigInvariants (stat : String → StatResult) (cfg : Config) : Prop :=
  (∃ r, Compile cfg.PhraseRegex = Except.ok r ∧ cfg.PhraseRegexp = some r) ∧
  stat cfg.SearchDir = StatResult.directory ∧
  (∃ r, Compile cfg.FileRegex = Except.ok r ∧ cfg.FileRegexp = some r) ∧
  (cfg.Output = FormatJSON ∨ cfg.Output = FormatText) ∧
  ¬(cfg.Extended = true ∧ cfg.IPsOnly = true) ∧
  (cfg.IncludeArchives = true ∨ cfg.ArchiveRegex ≠ "" →
    ∃ r, Compile cfg.ArchiveRegex = Except.ok r ∧ cfg.ArchiveRegexp = some r) ∧
  1 ≤ cfg.Concurrency

/-- Stat oracle of a host on which every path is an existing directory
(used by the concrete witness configurations). -/
def statAll : String → StatResult := fun _ => StatResult.directory

/-- Witness configuration: both mutually exclusive flags set, together with
an invalid archive pattern and an invalid concurrency. -/
def cfgMutual : Config :=
  { NewConfig 2 with
    PhraseRegex := "k"
    FileRegex := "f"
    Extended := true
    IPsOnly := true
    ArchiveRegex := "("
    Concurrency := 0 }

/-- Witness configuration: valid fields with an upper-case output format. -/
def cfgUpper : Config :=
  { NewConfig 2 with
    PhraseRegex := "k"
    FileRegex := "f"
    Output := "JSON" }

/-- Witness configuration: archive scanning enabled with a compilable
archive pattern. -/
def cfgArch : Config :=
  { NewConfig 2 with
    PhraseRegex := "k"
    FileRegex := "f"
    IncludeArchives := true
    ArchiveRegex := "a" }

/-- Witness configuration: archive scanning enabled with an empty archive
pattern. -/
def cfgEmptyArch : Config :=
  { NewConfig 2 with
    PhraseRegex := "k"
    FileRegex := "f"
    IncludeArchives := true
    ArchiveRegex := "" }

/-- Witness configuration: the default configuration with a phrase pattern,
on which validation succeeds. -/
def cfgGood : Config := { NewConfig 2 with PhraseRegex := "kill" }

/-- Counterexample configuration: non-positive concurrency together with an
empty phrase pattern. -/
def cfgLowCon : Config := { NewConfig 1 with Concurrency := 0 }

/-- Witness configuration: all checks before the concurrency check pass and
the concurrency is non-positive. -/
def cfgLow2 : Config :=
  { NewConfig 2 with
    PhraseRegex := "k"
    FileRegex := "f"
    Concurrency := 0 }

/-- Witness configuration: a fully valid configuration with positive
concurrency. -/
def cfgConOk : Config := { NewConfig 3 with PhraseRegex := "k" }

end Who

namespace Who

/-- Inversion: the empty regex matches exactly the empty segment. -/
theorem matches_eps_iff {pre mid post : List Char} :
    Matches Re.eps pre mid post ↔ mid = [] := by
  constructor
  · intro h; cases h; rfl
  · rintro rfl; exact Matches.eps pre post

/-- Inversion: a literal matches exactly its own character. -/
theorem matches_lit_iff {c : Char} {pre mid post : List Char} :
    Matches (Re.lit c) pre mid post ↔ mid = [c] := by
  constructor
  · intro h; cases h; rfl
  · rintro rfl; exact Matches.lit pre c post

/-- Inversion: the end-of-subject assertion matches the empty segment at the
end of the subject. -/
theorem matches_eol_iff {pre mid post : List Char} :
    Matches Re.eol pre mid post ↔ mid = [] ∧ post = [] := by
  constructor
  · intro h; cases h; exact ⟨rfl, rfl⟩
  · rintro ⟨rfl, rfl⟩; exact Matches.eol pre

/-- Inversion: a concatenation match splits the matched segment. -/
theorem matches_seq_iff {r1 r2 : Re} {pre mid post : List Char} :
    Matches (Re.seq r1 r2) pre mid post ↔
      ∃ m1 m2, mid = m1 ++ m2 ∧ Matches r1 pre m1 (m2 ++ post) ∧
        Matches r2 (pre ++ m1) m2 post := by
  constructor
  · intro h
    cases h with
    | seq pre m1 m2 post r1 r2 h1 h2 => exact ⟨m1, m2, rfl, h1, h2⟩
  · rintro ⟨m1, m2, rfl, h1, h2⟩
    exact Matches.seq pre m1 m2 post r1 r2 h1 h2

/-- Inversion: an alternation match comes from one of the branches. -/
theorem matches_alt_iff {r1 r2 : Re} {pre mid post : List Char} :
    Matches (Re.alt r1 r2) pre mid post ↔
      Matches r1 pre mid post ∨ Matches r2 pre mid post := by
  constructor
  · intro h
    cases h with
    | altL _ _ _ _ _ h => exact Or.inl h
    | altR _ _ _ _ _ h => exact Or.inr h
  · rintro (h | h)
    · exact Matches.altL pre mid post r1 r2 h
    · exact Matches.altR pre mid post r1 r2 h

/-- Unfolding equation of `mkSeq` on a cons with non-empty tail. -/
theorem mkSeq_cons {r : Re} {rs : List Re} (h : rs ≠ []) :
    mkSeq (r :: rs) = Re.seq r (mkSeq rs) := by
  cases rs with
  | nil => exact absurd rfl h
  | cons r2 rs2 => rfl

/-- Unfolding equation of `mkAlt` on a cons with non-empty tail. -/
theorem mkAlt_cons {r : Re} {rs : List Re} (h : rs ≠ []) :
    mkAlt (r :: rs) = Re.alt r (mkAlt rs) := by
  cases rs with
  | nil => exact absurd rfl h
  | cons r2 rs2 => rfl

/-- A literal-word regex matches exactly that word. -/
theorem matches_litWord_iff (w : List Char) {pre mid post : List Char} :
    Matches (litWord w) pre mid post ↔ mid = w := by
  induction w generalizing pre mid post with
  | nil => simpa [litWord, mkSeq] using matches_eps_iff
  | cons c w ih =>
    cases w with
    | nil => simpa [litWord, mkSeq] using matches_lit_iff
    | cons d w2 =>
      rw [litWord, List.map_cons,
        mkSeq_cons (by simp), matches_seq_iff]
      constructor
      · rintro ⟨m1, m2, rfl, h1, h2⟩
        rw [matches_lit_iff] at h1
        rw [show mkSeq (List.map Re.lit (d :: w2)) = litWord (d :: w2) from rfl,
          ih] at h2
        rw [h1, h2]
        rfl
      · rintro rfl
        refine ⟨[c], d :: w2, rfl, matches_lit_iff.2 rfl, ?_⟩
        rw [show mkSeq (List.map Re.lit (d :: w2)) = litWord (d :: w2) from rfl,
          ih]

/-- A literal word followed by the end-of-subject assertion matches exactly
that word, at the end of the subject. -/
theorem matches_litWordEol (w : List Char) {pre mid post : List Char} :
    Matches (mkSeq (w.map Re.lit ++ [Re.eol])) pre mid post ↔
      mid = w ∧ post = [] := by
  induction w generalizing pre mid post with
  | nil => simpa [mkSeq] using matches_eol_iff
  | cons c w ih =>
    rw [List.map_cons, List.cons_append, mkSeq_cons (by simp), matches_seq_iff]
    constructor
    · rintro ⟨m1, m2, rfl, h1, h2⟩
      rw [matches_lit_iff] at h1
      rw [ih] at h2
      subst h1
      exact ⟨by simp [h2.1], h2.2⟩
    · rintro ⟨rfl, rfl⟩
      exact ⟨[c], w, rfl, matches_lit_iff.2 rfl, ih.2 ⟨rfl, rfl⟩⟩

/-- An alternation of literal words matches exactly the listed words. -/
theorem matches_mkAlt_litWords (ws : List (List Char)) (hws : ws ≠ [])
    {pre mid post : List Char} :
    Matches (mkAlt (ws.map litWord)) pre mid post ↔ mid ∈ ws := by
  induction ws generalizing pre mid post with
  | nil => exact absurd rfl hws
  | cons w ws ih =>
    cases ws with
    | nil => simp [mkAlt, matches_litWord_iff]
    | cons w2 ws2 =>
      rw [List.map_cons, mkAlt_cons (by simp), matches_alt_iff,
        matches_litWord_iff, ih (by simp)]
      simp

/-- The empty regex matches every subject string. -/
theorem reMatch_eps (s : String) : ReMatch Re.eps s :=
  ⟨s.data, [], [], by simp, Matches.eps _ _⟩

/-- The compiled default file pattern matches exactly the strings ending in
`.log`. -/
theorem fileAst_matches (s : String) :
    ReMatch fileAst s ↔ StrEndsWith s ".log" := by
  constructor
  · rintro ⟨pre, mid, post, hs, hm⟩
    rw [show fileAst = Re.seq (Re.star Re.any)
        (mkSeq (['.', 'l', 'o', 'g'].map Re.lit ++ [Re.eol])) from rfl,
      matches_seq_iff] at hm
    obtain ⟨m1, m2, rfl, h1, h2⟩ := hm
    rw [matches_litWordEol] at h2
    obtain ⟨rfl, rfl⟩ := h2
    exact ⟨pre ++ m1, by simpa using hs⟩
  · rintro ⟨t, ht⟩
    refine ⟨t, ['.', 'l', 'o', 'g'], [], by simpa using ht, ?_⟩
    rw [show fileAst = Re.seq (Re.star Re.any)
        (mkSeq (['.', 'l', 'o', 'g'].map Re.lit ++ [Re.eol])) from rfl,
      matches_seq_iff]
    exact ⟨[], ['.', 'l', 'o', 'g'], rfl, Matches.starNil t _ Re.any,
      (matches_litWordEol _).2 ⟨rfl, rfl⟩⟩

/-- Shape of a match of the compiled default archive pattern: a dot followed
by one of the alternative words, at the end of the subject. -/
theorem archAst_matches_shape (s : String) :
    ReMatch archAst s ↔ ∃ t w, w ∈ archWords ∧ s.data = t ++ '.' :: w := by
  constructor
  · rintro ⟨pre, mid, post, hs, hm⟩
    rw [archAst, matches_seq_iff] at hm
    obtain ⟨m1, m2, rfl, h1, h2⟩ := hm
    rw [matches_lit_iff] at h1
    rw [matches_seq_iff] at h2
    obtain ⟨g, e, rfl, hg, he⟩ := h2
    rw [matches_mkAlt_litWords archWords (by simp [archWords])] at hg
    rw [matches_eol_iff] at he
    obtain ⟨rfl, rfl⟩ := he
    subst h1
    exact ⟨pre, g, hg, by simpa using hs⟩
  · rintro ⟨t, w, hw, hs⟩
    refine ⟨t, '.' :: w, [], by simpa using hs, ?_⟩
    rw [archAst, matches_seq_iff]
    refine ⟨['.'], w, rfl, matches_lit_iff.2 rfl, ?_⟩
    rw [matches_seq_iff]
    refine ⟨w, [], by simp, ?_, matches_eol_iff.2 ⟨rfl, rfl⟩⟩
    rw [matches_mkAlt_litWords archWords (by simp [archWords])]
    exact hw

/-- Ending in a dot followed by one of the source's alternative words is the
same as ending in one of the spec's archive extensions (the duplicated `xz`
word collapses). -/
theorem arch_words_exts (s : String) :
    (∃ t w, w ∈ archWords ∧ s.data = t ++ '.' :: w) ↔
      ∃ ext ∈ archiveExtensions, StrEndsWith s ext := by
  constructor
  · rintro ⟨t, w, hw, hs⟩
    simp only [archWords, List.mem_cons, List.not_mem_nil, or_false] at hw
    rcases hw with rfl | rfl | rfl | rfl | rfl | rfl | rfl | rfl | rfl
    · exact ⟨".7z", by simp [archiveExtensions], t, hs⟩
    · exact ⟨".bz2", by simp [archiveExtensions], t, hs⟩
    · exact ⟨".gz", by simp [archiveExtensions], t, hs⟩
    · exact ⟨".tar", by simp [archiveExtensions], t, hs⟩
    · exact ⟨".xz", by simp [archiveExtensions], t, hs⟩
    · exact ⟨".zip", by simp [archiveExtensions], t, hs⟩
    · exact ⟨".xz", by simp [archiveExtensions], t, hs⟩
    · exact ⟨".zst", by simp [archiveExtensions], t, hs⟩
    · exact ⟨".lz", by simp [archiveExtensions], t, hs⟩
  · rintro ⟨ext, hext, t, hs⟩
    simp only [archiveExtensions, List.mem_cons, List.not_mem_nil, or_false] at hext
    rcases hext with rfl | rfl | rfl | rfl | rfl | rfl | rfl | rfl
    · exact ⟨t, ['7', 'z'], by simp [archWords], hs⟩
    · exact ⟨t, ['b', 'z', '2'], by simp [archWords], hs⟩
    · exact ⟨t, ['g', 'z'], by simp [archWords], hs⟩
    · exact ⟨t, ['t', 'a', 'r'], by simp [archWords], hs⟩
    · exact ⟨t, ['x', 'z'], by simp [archWords], hs⟩
    · exact ⟨t, ['z', 'i', 'p'], by simp [archWords], hs⟩
    · exact ⟨t, ['z', 's', 't'], by simp [archWords], hs⟩
    · exact ⟨t, ['l', 'z'], by simp [archWords], hs⟩

/-- The compiled default archive pattern matches exactly the strings ending
in one of the archive extensions. -/
theorem archAst_matches (s : String) :
    ReMatch archAst s ↔ ∃ ext ∈ archiveExtensions, StrEndsWith s ext :=
  (archAst_matches_shape s).trans (arch_words_exts s)

/-- Characterisation of `isOneOf` as list membership. -/
theorem isOneOf_eq_true_iff (s : String) (vs : List String) :
    isOneOf s vs = true ↔ s ∈ vs := by
  induction vs with
  | nil => simp [isOneOf]
  | cons v vs ih => by_cases h : s = v <;> simp [isOneOf, h, ih]

/-- Characterisation of `isOneOf` on a two-element candidate list. -/
theorem isOneOf_two_iff (s a b : String) :
    isOneOf s [a, b] = true ↔ (s = a ∨ s = b) := by
  simp [isOneOf_eq_true_iff]

end Who

namespace Who

/-- Claim C1: for every Configuration on which Validate returns no error,
the resulting Configuration satisfies all seven invariants of spec §3 —
the compiled phrase pattern equals the compilation of the phrase pattern,
the search directory is an existing directory, the compiled file pattern
equals the compilation of the file pattern, the output format is exactly
`json` or `text`, `extended` and `ipsOnlyMode` are not both true, the
archive conditional holds, and the concurrency is at least 1. -/
theorem validate_ok_invariants (stat : String → StatResult) (cfg : Config)
    (h : (Validate stat cfg).2 = none) :
    ConfigInvariants stat (Validate stat cfg).1 := by
  by_cases h1 : cfg.PhraseRegex = ""
  · simp [Validate, h1] at h
  rcases h2 : Compile cfg.PhraseRegex with e2 | rp
  · simp [Validate, h1, h2] at h
  by_cases h3 : cfg.SearchDir = ""
  · simp [Validate, h1, h2, h3] at h
  cases h4 : stat cfg.SearchDir with
  | statError e4 => simp [Validate, h1, h2, h3, h4] at h
  | file => simp [Validate, h1, h2, h3, h4] at h
  | directory =>
    by_cases h5 : cfg.FileRegex = ""
    · simp [Validate, h1, h2, h3, h4, h5] at h
    rcases h6 : Compile cfg.FileRegex with e6 | rf
    · simp [Validate, h1, h2, h3, h4, h5, h6] at h
    cases h7 : isOneOf (ToLower cfg.Output) [FormatJSON, FormatText] with
    | false => simp [Validate, h1, h2, h3, h4, h5, h6, h7] at h
    | true =>
      have ho := (isOneOf_two_iff (ToLower cfg.Output) FormatJSON FormatText).1 h7
      cases h8 : cfg.Extended && cfg.IPsOnly with
      | true => simp [Validate, h1, h2, h3, h4, h5, h6, h7, h8] at h
      | false =>
        have hflags : ¬(cfg.Extended = true ∧ cfg.IPsOnly = true) := by
          simp only [← Bool.and_eq_true, h8]
          exact Bool.false_ne_true
        by_cases h9 : cfg.IncludeArchives = true ∨ cfg.ArchiveRegex ≠ ""
        · rcases h10 : Compile cfg.ArchiveRegex with e10 | ra
          · simp [Validate, h1, h2, h3, h4, h5, h6, h7, h8, h9, h10] at h
          by_cases h11 : cfg.Concurrency < 1
          · simp [Validate, h1, h2, h3, h4, h5, h6, h7, h8, h9, h10, h11] at h
          have hv : (Validate stat cfg).1 =
              { cfg with
                PhraseRegexp := some rp
                FileRegexp := some rf
                Output := ToLower cfg.Output
                ArchiveRegexp := some ra } := by
            simp [Validate, h1, h2, h3, h4, h5, h6, h7, h8, h9, h10, h11]
          rw [hv]
          exact ⟨⟨rp, h2, rfl⟩, h4, ⟨rf, h6, rfl⟩, ho, hflags,
            fun _ => ⟨ra, h10, rfl⟩, by show (1 : Int) ≤ cfg.Concurrency; omega⟩
        · by_cases h11 : cfg.Concurrency < 1
          · simp [Validate, h1, h2, h3, h4, h5, h6, h7, h8, h9, h11] at h
          have hv : (Validate stat cfg).1 =
              { cfg with
                PhraseRegexp := some rp
                FileRegexp := some rf
                Output := ToLower cfg.Output } := by
            simp [Validate, h1, h2, h3, h4, h5, h6, h7, h8, h9, h11]
          rw [hv]
          exact ⟨⟨rp, h2, rfl⟩, h4, ⟨rf, h6, rfl⟩, ho, hflags,
            fun hc => absurd hc h9, by show (1 : Int) ≤ cfg.Concurrency; omega⟩

/-- Witness for C1: on the default configuration with phrase `kill` and a
host where `.` is a directory, validation succeeds and the invariants hold
for the resulting configuration. -/
theorem validate_ok_invariants_witness :
    ConfigInvariants statAll (Validate statAll cfgGood).1 :=
  validate_ok_invariants statAll cfgGood rfl

/-- Claim C2: Validate runs its ten checks in exactly the spec §4.2 order
and on the first failing check returns immediately with that check's error:
its error result coincides, for every stat oracle and configuration, with
the reference function that evaluates the ten spec checks in the listed
order over the original fields and returns the first failure. -/
theorem validate_error_eq_spec (stat : String → StatResult) (cfg : Config) :
    (Validate stat cfg).2 = specValidationError stat cfg := by
  by_cases h1 : cfg.PhraseRegex = ""
  · simp [Validate, specValidationError, h1]
  rcases h2 : Compile cfg.PhraseRegex with e2 | rp
  · simp [Validate, specValidationError, h1, h2]
  by_cases h3 : cfg.SearchDir = ""
  · simp [Validate, specValidationError, h1, h2, h3]
  cases h4 : stat cfg.SearchDir with
  | statError e4 => simp [Validate, specValidationError, h1, h2, h3, h4]
  | file => simp [Validate, specValidationError, h1, h2, h3, h4]
  | directory =>
    by_cases h5 : cfg.FileRegex = ""
    · simp [Validate, specValidationError, h1, h2, h3, h4, h5]
    rcases h6 : Compile cfg.FileRegex with e6 | rf
    · simp [Validate, specValidationError, h1, h2, h3, h4, h5, h6]
    by_cases h7 : ToLower cfg.Output = FormatJSON ∨ ToLower cfg.Output = FormatText
    case neg =>
      have h7b : isOneOf (ToLower cfg.Output) [FormatJSON, FormatText] = false := by
        rw [Bool.eq_false_iff]
        intro hc
        exact h7 ((isOneOf_two_iff _ _ _).1 hc)
      simp [Validate, specValidationError, h1, h2, h3, h4, h5, h6, h7, h7b]
    case pos =>
    have h7b : isOneOf (ToLower cfg.Output) [FormatJSON, FormatText] = true :=
      (isOneOf_two_iff _ _ _).2 h7
    by_cases h8 : cfg.Extended = true ∧ cfg.IPsOnly = true
    case pos =>
      have h8b : (cfg.Extended && cfg.IPsOnly) = true := by
        rw [Bool.and_eq_true]
        exact h8
      simp [Validate, specValidationError, h1, h2, h3, h4, h5, h6, h7, h7b, h8, h8b]
    case neg =>
    have h8b : (cfg.Extended && cfg.IPsOnly) = false := by
      cases hE : cfg.Extended <;> cases hI : cfg.IPsOnly <;> simp_all
    by_cases h9 : cfg.IncludeArchives = true ∨ cfg.ArchiveRegex ≠ ""
    · rcases h10 : Compile cfg.ArchiveRegex with e10 | ra
      · simp [Validate, specValidationError, h1, h2, h3, h4, h5, h6, h7, h7b,
          h8, h8b, h9, h10]
      by_cases h11 : cfg.Concurrency < 1 <;>
        simp [Validate, specValidationError, h1, h2, h3, h4, h5, h6, h7, h7b,
          h8, h8b, h9, h10, h11]
    · by_cases h11 : cfg.Concurrency < 1 <;>
        simp [Validate, specValidationError, h1, h2, h3, h4, h5, h6, h7, h7b,
          h8, h8b, h9, h11]

/-- Claim C3: for every Configuration whose phrase pattern is the empty
string, Validate returns the missing-required-field error for the phrase
regex and no other field is checked — the configuration is returned
completely unchanged (in particular no compiled pattern is set) and no
other error can be returned. -/
theorem validate_empty_phrase (stat : String → StatResult) (cfg : Config)
    (h : cfg.PhraseRegex = "") :
    Validate stat cfg = (cfg, some ValidateError.missingPhraseRegex) := by
  simp [Validate, h]

/-- Witness for C3: the default configuration has an empty phrase pattern
and fails exactly this way. -/
theorem validate_empty_phrase_witness :
    Validate statAll (NewConfig 4) =
      (NewConfig 4, some ValidateError.missingPhraseRegex) :=
  validate_empty_phrase statAll (NewConfig 4) rfl

/-- Claim C4: for every Configuration passing the checks preceding the
output-format check, if the lower-cased output format is neither `json` nor
`text` then Validate returns the invalid-enum-value error carrying the
original value; if it is one of them, the check passes (that error is never
returned) and the output format is stored back normalised to lowercase. -/
theorem validate_output_check (stat : String → StatResult) (cfg : Config)
    (rp rf : Re)
    (hp : cfg.PhraseRegex ≠ "") (hpc : Compile cfg.PhraseRegex = Except.ok rp)
    (hd : cfg.SearchDir ≠ "") (hds : stat cfg.SearchDir = StatResult.directory)
    (hf : cfg.FileRegex ≠ "") (hfc : Compile cfg.FileRegex = Except.ok rf) :
    (¬(ToLower cfg.Output = FormatJSON ∨ ToLower cfg.Output = FormatText) →
      (Validate stat cfg).2 = some (ValidateError.invalidOutputFormat cfg.Output)) ∧
    ((ToLower cfg.Output = FormatJSON ∨ ToLower cfg.Output = FormatText) →
      (Validate stat cfg).1.Output = ToLower cfg.Output ∧
      ∀ v, (Validate stat cfg).2 ≠ some (ValidateError.invalidOutputFormat v)) := by
  constructor
  · intro hno
    have hb : isOneOf (ToLower cfg.Output) [FormatJSON, FormatText] = false := by
      rw [Bool.eq_false_iff]
      intro hc
      exact hno ((isOneOf_two_iff _ _ _).1 hc)
    simp [Validate, hp, hpc, hd, hds, hf, hfc, hb]
  · intro ho
    have hb : isOneOf (ToLower cfg.Output) [FormatJSON, FormatText] = true :=
      (isOneOf_two_iff _ _ _).2 ho
    by_cases h8 : (cfg.Extended && cfg.IPsOnly) = true
    · simp [Validate, hp, hpc, hd, hds, hf, hfc, hb, h8]
    · by_cases h9 : cfg.IncludeArchives = true ∨ cfg.ArchiveRegex ≠ ""
      · rcases h9c : Compile cfg.ArchiveRegex with e | ra
        · simp [Validate, hp, hpc, hd, hds, hf, hfc, hb, h8, h9, h9c]
        · by_cases h10 : cfg.Concurrency < 1 <;>
            simp [Validate, hp, hpc, hd, hds, hf, hfc, hb, h8, h9, h9c, h10]
      · by_cases h10 : cfg.Concurrency < 1 <;>
          simp [Validate, hp, hpc, hd, hds, hf, hfc, hb, h8, h9, h10]

/-- Witness for C4: validating a configuration with output `JSON` stores
back the normalised value `json`. -/
theorem validate_output_check_witness :
    (Validate statAll cfgUpper).1.Output = "json" := by
  have h := validate_output_check statAll cfgUpper
    (Re.lit 'k') (Re.lit 'f') (by decide) rfl (by decide) rfl (by decide) rfl
  exact ((h.2 (Or.inl rfl)).1).trans rfl

/-- Claim C5: for every Configuration with both `extended` and `ipsOnlyMode`
true whose required-field, pattern, directory and output-format checks all
pass, Validate returns the mutually-exclusive-flags error regardless of the
validity of the remaining fields (archive pattern, concurrency). -/
theorem validate_mutual_flags (stat : String → StatResult) (cfg : Config)
    (rp rf : Re)
    (hp : cfg.PhraseRegex ≠ "") (hpc : Compile cfg.PhraseRegex = Except.ok rp)
    (hd : cfg.SearchDir ≠ "") (hds : stat cfg.SearchDir = StatResult.directory)
    (hf : cfg.FileRegex ≠ "") (hfc : Compile cfg.FileRegex = Except.ok rf)
    (ho : ToLower cfg.Output = FormatJSON ∨ ToLower cfg.Output = FormatText)
    (hex : cfg.Extended = true) (hip : cfg.IPsOnly = true) :
    (Validate stat cfg).2 = some ValidateError.mutuallyExclusiveFlags := by
  have hb : isOneOf (ToLower cfg.Output) [FormatJSON, FormatText] = true :=
    (isOneOf_two_iff _ _ _).2 ho
  simp [Validate, hp, hpc, hd, hds, hf, hfc, hb, hex, hip]

/-- Witness for C5: both flags set together with an uncompilable archive
pattern and an invalid concurrency still yield the mutual-exclusion error. -/
theorem validate_mutual_flags_witness :
    (Validate statAll cfgMutual).2 = some ValidateError.mutuallyExclusiveFlags :=
  validate_mutual_flags statAll cfgMutual
    (Re.lit 'k') (Re.lit 'f') (by decide) rfl (by decide) rfl (by decide) rfl
    (Or.inr rfl) rfl rfl

end Who

namespace Who

/-- Counterexample for C6 as stated: a Configuration with concurrency 0 on
which Validate does not return the concurrency range error (the empty phrase
pattern fails first). -/
theorem validate_concurrency_counterexample :
    cfgLowCon.Concurrency ≤ 0 ∧
    (Validate statAll cfgLowCon).2 ≠ some ValidateError.invalidConcurrency ∧
    (Validate statAll cfgLowCon).2 = some ValidateError.missingPhraseRegex :=
  ⟨by decide, by decide, by decide⟩

/-- Claim C6 (amended): for every Configuration reaching the concurrency
check — all earlier checks pass — with concurrency ≤ 0, Validate returns the
invalid-range error for concurrency; and for every Configuration with
concurrency ≥ 1, the concurrency check never fails (the invalid-range error
is never returned). -/
theorem validate_concurrency_range (stat : String → StatResult) (cfg : Config) :
    ((cfg.PhraseRegex ≠ "" ∧ (∃ r, Compile cfg.PhraseRegex = Except.ok r) ∧
      cfg.SearchDir ≠ "" ∧ stat cfg.SearchDir = StatResult.directory ∧
      cfg.FileRegex ≠ "" ∧ (∃ r, Compile cfg.FileRegex = Except.ok r) ∧
      (ToLower cfg.Output = FormatJSON ∨ ToLower cfg.Output = FormatText) ∧
      ¬(cfg.Extended = true ∧ cfg.IPsOnly = true) ∧
      (cfg.IncludeArchives = true ∨ cfg.ArchiveRegex ≠ "" →
        ∃ r, Compile cfg.ArchiveRegex = Except.ok r)) →
      cfg.Concurrency ≤ 0 →
      (Validate stat cfg).2 = some ValidateError.invalidConcurrency) ∧
    (1 ≤ cfg.Concurrency →
      (Validate stat cfg).2 ≠ some ValidateError.invalidConcurrency) := by
  constructor
  · rintro ⟨hp, ⟨rp, hpc⟩, hd, hds, hf, ⟨rf, hfc⟩, ho, hx, harch⟩ hco
    have hb : isOneOf (ToLower cfg.Output) [FormatJSON, FormatText] = true :=
      (isOneOf_two_iff _ _ _).2 ho
    have hxb : (cfg.Extended && cfg.IPsOnly) = false := by
      cases hE : cfg.Extended <;> cases hI : cfg.IPsOnly <;> simp_all
    have h11 : cfg.Concurrency < 1 := by omega
    by_cases h9 : cfg.IncludeArchives = true ∨ cfg.ArchiveRegex ≠ ""
    · obtain ⟨ra, hra⟩ := harch h9
      simp [Validate, hp, hpc, hd, hds, hf, hfc, hb, hxb, h9, hra, h11]
    · simp [Validate, hp, hpc, hd, hds, hf, hfc, hb, hxb, h9, h11]
  · intro hge
    have h11 : ¬(cfg.Concurrency < 1) := by omega
    by_cases h1 : cfg.PhraseRegex = ""
    · simp [Validate, h1]
    rcases h2 : Compile cfg.PhraseRegex with e2 | rp
    · simp [Validate, h1, h2]
    by_cases h3 : cfg.SearchDir = ""
    · simp [Validate, h1, h2, h3]
    cases h4 : stat cfg.SearchDir with
    | statError e4 => simp [Validate, h1, h2, h3, h4]
    | file => simp [Validate, h1, h2, h3, h4]
    | directory =>
      by_cases h5 : cfg.FileRegex = ""
      · simp [Validate, h1, h2, h3, h4, h5]
      rcases h6 : Compile cfg.FileRegex with e6 | rf
      · simp [Validate, h1, h2, h3, h4, h5, h6]
      cases h7 : isOneOf (ToLower cfg.Output) [FormatJSON, FormatText] with
      | false => simp [Validate, h1, h2, h3, h4, h5, h6, h7]
      | true =>
        cases h8 : cfg.Extended && cfg.IPsOnly with
        | true => simp [Validate, h1, h2, h3, h4, h5, h6, h7, h8]
        | false =>
          by_cases h9 : cfg.IncludeArchives = true ∨ cfg.ArchiveRegex ≠ ""
          · rcases h10 : Compile cfg.ArchiveRegex with e10 | ra
            · simp [Validate, h1, h2, h3, h4, h5, h6, h7, h8, h9, h10]
            simp [Validate, h1, h2, h3, h4, h5, h6, h7, h8, h9, h10, h11]
          · simp [Validate, h1, h2, h3, h4, h5, h6, h7, h8, h9, h11]

/-- Witness for C6 (amended): a configuration reaching the concurrency check
with concurrency 0 gets the range error, and a valid configuration with
positive concurrency never does. -/
theorem validate_concurrency_range_witness :
    (Validate statAll cfgLow2).2 = some ValidateError.invalidConcurrency ∧
    (Validate statAll cfgConOk).2 ≠ some ValidateError.invalidConcurrency :=
  ⟨(validate_concurrency_range statAll cfgLow2).1
      ⟨by decide, ⟨Re.lit 'k', rfl⟩, by decide, rfl, by decide, ⟨Re.lit 'f', rfl⟩,
        Or.inr rfl, by decide, fun _ => ⟨archAst, rfl⟩⟩ (by decide),
   (validate_concurrency_range statAll cfgConOk).2 (by decide)⟩

/-- Claim C7: for every Configuration reaching the archive check, if archive
scanning is enabled or the archive pattern is non-empty then the pattern
must compile — a compile failure yields the invalid-archive-pattern error,
success stores the compiled pattern; otherwise the check passes without
error and the compiled archive pattern field is left untouched (so it
remains unset when it was unset). -/
theorem validate_archive_check (stat : String → StatResult) (cfg : Config)
    (rp rf : Re)
    (hp : cfg.PhraseRegex ≠ "") (hpc : Compile cfg.PhraseRegex = Except.ok rp)
    (hd : cfg.SearchDir ≠ "") (hds : stat cfg.SearchDir = StatResult.directory)
    (hf : cfg.FileRegex ≠ "") (hfc : Compile cfg.FileRegex = Except.ok rf)
    (ho : ToLower cfg.Output = FormatJSON ∨ ToLower cfg.Output = FormatText)
    (hx : ¬(cfg.Extended = true ∧ cfg.IPsOnly = true)) :
    ((cfg.IncludeArchives = true ∨ cfg.ArchiveRegex ≠ "") →
      (∀ e, Compile cfg.ArchiveRegex = Except.error e →
        (Validate stat cfg).2 = some (ValidateError.invalidArchiveRegex e)) ∧
      (∀ ra, Compile cfg.ArchiveRegex = Except.ok ra →
        (Validate stat cfg).1.ArchiveRegexp = some ra)) ∧
    (¬(cfg.IncludeArchives = true ∨ cfg.ArchiveRegex ≠ "") →
      (∀ e, (Validate stat cfg).2 ≠ some (ValidateError.invalidArchiveRegex e)) ∧
      (Validate stat cfg).1.ArchiveRegexp = cfg.ArchiveRegexp ∧
      (cfg.ArchiveRegexp = none → (Validate stat cfg).1.ArchiveRegexp = none)) := by
  have hb : isOneOf (ToLower cfg.Output) [FormatJSON, FormatText] = true :=
    (isOneOf_two_iff _ _ _).2 ho
  have hxb : (cfg.Extended && cfg.IPsOnly) = false := by
    cases hE : cfg.Extended <;> cases hI : cfg.IPsOnly <;> simp_all
  constructor
  · intro h9
    constructor
    · intro e he
      simp [Validate, hp, hpc, hd, hds, hf, hfc, hb, hxb, h9, he]
    · intro ra hra
      by_cases h10 : cfg.Concurrency < 1 <;>
        simp [Validate, hp, hpc, hd, hds, hf, hfc, hb, hxb, h9, hra, h10]
  · intro h9
    refine ⟨?_, ?_, ?_⟩
    · intro e
      by_cases h10 : cfg.Concurrency < 1 <;>
        simp [Validate, hp, hpc, hd, hds, hf, hfc, hb, hxb, h9, h10]
    · by_cases h10 : cfg.Concurrency < 1 <;>
        simp [Validate, hp, hpc, hd, hds, hf, hfc, hb, hxb, h9, h10]
    · intro hnone
      by_cases h10 : cfg.Concurrency < 1 <;>
        simp [Validate, hp, hpc, hd, hds, hf, hfc, hb, hxb, h9, h10, hnone]

/-- Witness for C7: with archive scanning enabled and archive pattern `a`,
the compiled archive pattern is stored. -/
theorem validate_archive_check_witness :
    (Validate statAll cfgArch).1.ArchiveRegexp = some (Re.lit 'a') :=
  ((validate_archive_check statAll cfgArch (Re.lit 'k') (Re.lit 'f')
    (by decide) rfl (by decide) rfl (by decide) rfl (Or.inr rfl)
    (by decide)).1 (Or.inl rfl)).2 (Re.lit 'a') rfl

/-- Claim C8: the default factory returns a Configuration with search
directory `.`, a file pattern matching exactly the names ending in `.log`,
deduplication off, output format `text`, an archive pattern matching
exactly the names ending in one of the extensions `.7z`, `.bz2`, `.gz`,
`.tar`, `.xz`, `.zip`, `.zst`, `.lz`, concurrency equal to the host's
processing-unit count floored at 1, and all compiled-pattern fields
unset. -/
theorem newConfig_defaults (numCPU : Int) :
    (NewConfig numCPU).SearchDir = "." ∧
    (NewConfig numCPU).Deduplicate = false ∧
    (NewConfig numCPU).Output = "text" ∧
    (NewConfig numCPU).Concurrency = max 1 numCPU ∧
    (NewConfig numCPU).PhraseRegexp = none ∧
    (NewConfig numCPU).FileRegexp = none ∧
    (NewConfig numCPU).ArchiveRegexp = none ∧
    (∃ rf, Compile (NewConfig numCPU).FileRegex = Except.ok rf ∧
      ∀ s : String, ReMatch rf s ↔ StrEndsWith s ".log") ∧
    (∃ ra, Compile (NewConfig numCPU).ArchiveRegex = Except.ok ra ∧
      ∀ s : String, ReMatch ra s ↔ ∃ ext ∈ archiveExtensions, StrEndsWith s ext) :=
  ⟨rfl, rfl, rfl, rfl, rfl, rfl, rfl, ⟨fileAst, rfl, fileAst_matches⟩,
   ⟨archAst, rfl, archAst_matches⟩⟩

/-- Claim C9: for every stat oracle and configuration, and for both success
and failure outcomes, Validate only ever writes the three compiled-pattern
fields and the output format — the nine remaining fields of the returned
configuration are unchanged. -/
theorem validate_frame (stat : String → StatResult) (cfg : Config) :
    (Validate stat cfg).1.PhraseRegex = cfg.PhraseRegex ∧
    (Validate stat cfg).1.SearchDir = cfg.SearchDir ∧
    (Validate stat cfg).1.FileRegex = cfg.FileRegex ∧
    (Validate stat cfg).1.Deduplicate = cfg.Deduplicate ∧
    (Validate stat cfg).1.Extended = cfg.Extended ∧
    (Validate stat cfg).1.IPsOnly = cfg.IPsOnly ∧
    (Validate stat cfg).1.ArchiveRegex = cfg.ArchiveRegex ∧
    (Validate stat cfg).1.IncludeArchives = cfg.IncludeArchives ∧
    (Validate stat cfg).1.Concurrency = cfg.Concurrency := by
  by_cases h1 : cfg.PhraseRegex = ""
  · simp [Validate, h1]
  rcases h2 : Compile cfg.PhraseRegex with e2 | rp
  · simp [Validate, h1, h2]
  by_cases h3 : cfg.SearchDir = ""
  · simp [Validate, h1, h2, h3]
  cases h4 : stat cfg.SearchDir with
  | statError e4 => simp [Validate, h1, h2, h3, h4]
  | file => simp [Validate, h1, h2, h3, h4]
  | directory =>
    by_cases h5 : cfg.FileRegex = ""
    · simp [Validate, h1, h2, h3, h4, h5]
    rcases h6 : Compile cfg.FileRegex with e6 | rf
    · simp [Validate, h1, h2, h3, h4, h5, h6]
    cases h7 : isOneOf (ToLower cfg.Output) [FormatJSON, FormatText] with
    | false => simp [Validate, h1, h2, h3, h4, h5, h6, h7]
    | true =>
      cases h8 : cfg.Extended && cfg.IPsOnly with
      | true => simp [Validate, h1, h2, h3, h4, h5, h6, h7, h8]
      | false =>
        by_cases h9 : cfg.IncludeArchives = true ∨ cfg.ArchiveRegex ≠ ""
        · rcases h10 : Compile cfg.ArchiveRegex with e10 | ra
          · simp [Validate, h1, h2, h3, h4, h5, h6, h7, h8, h9, h10]
          by_cases h11 : cfg.Concurrency < 1 <;>
            simp [Validate, h1, h2, h3, h4, h5, h6, h7, h8, h9, h10, h11]
        · by_cases h11 : cfg.Concurrency < 1 <;>
            simp [Validate, h1, h2, h3, h4, h5, h6, h7, h8, h9, h11]

/-- Claim C10: for every Configuration reaching the archive check with
archive scanning enabled and an empty archive pattern, the check does not
fail — the empty pattern compiles and the compiled archive pattern is set
to a pattern matching every string. -/
theorem validate_empty_archive_pattern (stat : String → StatResult)
    (cfg : Config) (rp rf : Re)
    (hp : cfg.PhraseRegex ≠ "") (hpc : Compile cfg.PhraseRegex = Except.ok rp)
    (hd : cfg.SearchDir ≠ "") (hds : stat cfg.SearchDir = StatResult.directory)
    (hf : cfg.FileRegex ≠ "") (hfc : Compile cfg.FileRegex = Except.ok rf)
    (ho : ToLower cfg.Output = FormatJSON ∨ ToLower cfg.Output = FormatText)
    (hx : ¬(cfg.Extended = true ∧ cfg.IPsOnly = true))
    (hia : cfg.IncludeArchives = true) (har : cfg.ArchiveRegex = "") :
    (∀ e, (Validate stat cfg).2 ≠ some (ValidateError.invalidArchiveRegex e)) ∧
    Compile cfg.ArchiveRegex = Except.ok Re.eps ∧
    (Validate stat cfg).1.ArchiveRegexp = some Re.eps ∧
    (∀ s : String, ReMatch Re.eps s) := by
  have hb : isOneOf (ToLower cfg.Output) [FormatJSON, FormatText] = true :=
    (isOneOf_two_iff _ _ _).2 ho
  have hxb : (cfg.Extended && cfg.IPsOnly) = false := by
    cases hE : cfg.Extended <;> cases hI : cfg.IPsOnly <;> simp_all
  have hca : Compile cfg.ArchiveRegex = Except.ok Re.eps := by rw [har]; rfl
  refine ⟨?_, hca, ?_, fun s => reMatch_eps s⟩
  · intro e
    by_cases h10 : cfg.Concurrency < 1 <;>
      simp [Validate, hp, hpc, hd, hds, hf, hfc, hb, hxb, hia, hca, h10]
  · by_cases h10 : cfg.Concurrency < 1 <;>
      simp [Validate, hp, hpc, hd, hds, hf, hfc, hb, hxb, hia, hca, h10]

/-- Witness for C10: archive scanning enabled with an empty archive pattern
sets the compiled archive pattern to the empty regex, which matches an
arbitrary concrete string. -/
theorem validate_empty_archive_pattern_witness :
    (Validate statAll cfgEmptyArch).1.ArchiveRegexp = some Re.eps ∧
    ReMatch Re.eps "anything" :=
  ⟨(validate_empty_archive_pattern statAll cfgEmptyArch (Re.lit 'k') (Re.lit 'f')
      (by decide) rfl (by decide) rfl (by decide) rfl (Or.inr rfl)
      (by decide) rfl rfl).2.2.1,
   (validate_empty_archive_pattern statAll cfgEmptyArch (Re.lit 'k') (Re.lit 'f')
      (by decide) rfl (by decide) rfl (by decide) rfl (Or.inr rfl)
      (by decide) rfl rfl).2.2.2 "anything"⟩

end Who
